import Mathlib

/-!
Shallow embedding of the comfyui_proxy asynchronous task pipeline
(src/app/storage/sqlite.py, src/app/core/task_manager.py,
src/app/core/worker.py, src/app/clients/comfyui/client.py,
src/app/clients/feishu/client.py), together with theorems checking the
natural-language specification against the code.

Modelling conventions:
- The SQLite `tasks` table is a list of rows in insertion (rowid) order.
- Timestamps (`created_at` / `updated_at`, ISO strings in the code) are
  naturals; string comparison of ISO timestamps coincides with numeric
  comparison of the instants they encode.
- Opaque serialized JSON payloads (`workflow`, `feishu_config`, `result`)
  are strings.  `metadata` is `Optional[dict]` in the code and its Python
  truthiness (None and the empty dict are falsy) matters, so it is modelled
  structurally as `Option (List (String × String))`.
- Async effects (uuid generation, wall-clock reads) are passed in as
  explicit arguments; fallible calls return `Except`/`Option`.
-/

/-- Task status enumeration, from `TaskStatus` in src/app/schemas/task.py. -/
inductive TaskStatus where
  | pending
  | processing
  | uploading
  | completed
  | failed
deriving DecidableEq, Repr

/-- Model of an `Optional[dict[str, Any]]` metadata payload: a list of
key/value pairs (values kept opaque as strings). -/
abbrev Meta := List (String × String)

/-- Python truthiness of an `Optional[dict]`: `None` and `{}` are falsy,
any non-empty dict is truthy. -/
def pyTruthyMeta : Option Meta → Bool
  | none => false
  | some m => !m.isEmpty

/-- Row / record model, from `TaskDB` in src/app/schemas/task.py. -/
structure TaskDB where
  task_id : String
  status : TaskStatus
  progress : Int
  workflow : String
  output_node_ids : List String
  feishu_config : String
  result : Option String
  error : Option String
  metadata : Option Meta
  created_at : Nat
  updated_at : Nat
deriving DecidableEq, Repr

/-- The tasks table: rows in insertion (rowid) order. -/
abbrev Store := List TaskDB

/-- Request model, from `TaskCreateRequest` in src/app/schemas/task.py. -/
structure TaskCreateRequest where
  workflow : String
  output_node_ids : List String
  feishu_config : String
  metadata : Option Meta
deriving DecidableEq, Repr

/-- Response model, from `TaskResponse` in src/app/schemas/task.py. -/
structure TaskResponse where
  task_id : String
  status : TaskStatus
  progress : Int
  result : Option String
  error : Option String
  metadata : Option Meta
  created_at : Nat
  updated_at : Nat
deriving DecidableEq, Repr

namespace Storage

/-- The INSERT parameter binding in `SQLiteStorage.create_task`
(src/app/storage/sqlite.py lines 58-70): `result` and `metadata` are
serialized with `json.dumps(x) if x else None`, i.e. Python-falsy values
(None, and for metadata the empty dict) are stored as NULL.  A stored row
is read back by `_row_to_task`, which maps NULL to None; the net effect of
the serialize/deserialize round trip is this normalization. -/
def storedRow (t : TaskDB) : TaskDB :=
  { t with
    metadata := if pyTruthyMeta t.metadata then t.metadata else none,
    result := if t.result.isSome then t.result else none }

/-- `SQLiteStorage.create_task` (src/app/storage/sqlite.py lines 49-73).
`task_id` is the PRIMARY KEY, so inserting a duplicate id raises and
leaves the table unchanged; otherwise the row is appended.  The returned
Bool records whether the insert succeeded. -/
def create_task (t : TaskDB) (s : Store) : Store × Bool :=
  if s.any (fun u => u.task_id = t.task_id) then (s, false)
  else (s ++ [storedRow t], true)

/-- `SQLiteStorage.get_task` (src/app/storage/sqlite.py lines 75-83):
SELECT by primary key. -/
def get_task (task_id : String) (s : Store) : Option TaskDB :=
  s.find? (fun t => t.task_id = task_id)

/-- The per-row effect of the UPDATE statement built by
`SQLiteStorage.update_task` (src/app/storage/sqlite.py lines 85-121):
each parameter that `is not None` patches its column, and `updated_at` is
always refreshed. -/
def patchRow (status : Option TaskStatus) (progress : Option Int)
    (result : Option String) (error : Option String) (now : Nat)
    (t : TaskDB) : TaskDB :=
  { t with
    status := status.getD t.status,
    progress := progress.getD t.progress,
    result := match result with | some r => some r | none => t.result,
    error := match error with | some e => some e | none => t.error,
    updated_at := now }

/-- `SQLiteStorage.update_task`: UPDATE ... WHERE task_id = ?, then a
re-read of the row. -/
def update_task (task_id : String) (status : Option TaskStatus)
    (progress : Option Int) (result : Option String) (error : Option String)
    (now : Nat) (s : Store) : Store × Option TaskDB :=
  let s2 := s.map (fun t =>
    if t.task_id = task_id then patchRow status progress result error now t
    else t)
  (s2, get_task task_id s2)

/-- `SQLiteStorage.delete_task` (src/app/storage/sqlite.py lines 124-130):
`DELETE FROM tasks WHERE task_id = ?` — the WHERE clause tests only the
id, there is no status condition.  Returns `rowcount > 0`. -/
def delete_task (task_id : String) (s : Store) : Store × Bool :=
  (s.filter (fun t => t.task_id ≠ task_id),
   s.any (fun t => t.task_id = task_id))

/-- Key order used by `ORDER BY created_at ASC` in
`SQLiteStorage.get_pending_tasks`. -/
def createdLE (u v : TaskDB) : Prop := u.created_at ≤ v.created_at

instance : DecidableRel createdLE := fun _ _ => Nat.decLe _ _

instance : IsTotal TaskDB createdLE :=
  ⟨fun u v => Nat.le_total u.created_at v.created_at⟩

instance : IsTrans TaskDB createdLE :=
  ⟨fun _ _ _ => Nat.le_trans⟩

/-- `SQLiteStorage.get_pending_tasks` (src/app/storage/sqlite.py lines
132-144): `SELECT * FROM tasks WHERE status = 'pending' ORDER BY
created_at ASC LIMIT ?`.  The ORDER BY names only `created_at`; rows with
equal `created_at` come out in table (rowid) order, modelled by a stable
insertion sort over the rows in insertion order. -/
def get_pending_tasks (limit : Nat) (s : Store) : List TaskDB :=
  ((s.filter (fun t => t.status = TaskStatus.pending)).insertionSort
    createdLE).take limit

end Storage

namespace TaskManager

/-- `TaskManager.create_task` (src/app/core/task_manager.py lines 16-34):
builds a fresh `TaskDB` with `status=pending, progress=0`, no result, no
error, metadata taken verbatim from the request, and persists it.  The
generated uuid and the two `datetime.utcnow()` reads are passed in as
`task_id` and `now`. -/
def create_task (task_id : String) (req : TaskCreateRequest) (now : Nat)
    (s : Store) : Store × Bool :=
  Storage.create_task
    { task_id := task_id,
      status := TaskStatus.pending,
      progress := 0,
      workflow := req.workflow,
      output_node_ids := req.output_node_ids,
      feishu_config := req.feishu_config,
      result := none,
      error := none,
      metadata := req.metadata,
      created_at := now,
      updated_at := now } s

/-- `TaskManager._to_response` (src/app/core/task_manager.py lines
107-122): all fields echoed; `result` passes through the `if task.result:`
truthiness test, which for the serialized non-empty result dicts produced
by this pipeline coincides with presence. -/
def toResponse (t : TaskDB) : TaskResponse :=
  { task_id := t.task_id,
    status := t.status,
    progress := t.progress,
    result := t.result,
    error := t.error,
    metadata := t.metadata,
    created_at := t.created_at,
    updated_at := t.updated_at }

/-- `TaskManager.get_task` (src/app/core/task_manager.py lines 36-44). -/
def get_task (task_id : String) (s : Store) : Option TaskResponse :=
  (Storage.get_task task_id s).map toResponse

/-- `TaskManager.cancel_task` (src/app/core/task_manager.py lines 46-59):
read the task, return False when missing or not pending, otherwise call
the store's delete path (which itself checks only the id). -/
def cancel_task (task_id : String) (s : Store) : Store × Bool :=
  match Storage.get_task task_id s with
  | none => (s, false)
  | some t =>
      if t.status ≠ TaskStatus.pending then (s, false)
      else ((Storage.delete_task task_id s).1, true)

/-- `TaskManager.update_task_status` (src/app/core/task_manager.py lines
61-73). -/
def update_task_status (task_id : String) (status : TaskStatus)
    (progress : Option Int) (now : Nat) (s : Store) :
    Store × Option TaskDB :=
  Storage.update_task task_id (some status) progress none none now s

/-- `TaskManager.complete_task` (src/app/core/task_manager.py lines
75-87): `status=completed, progress=100, result=result.model_dump()`. -/
def complete_task (task_id : String) (result : String) (now : Nat)
    (s : Store) : Store × Option TaskDB :=
  Storage.update_task task_id (some TaskStatus.completed) (some 100)
    (some result) none now s

/-- `TaskManager.fail_task` (src/app/core/task_manager.py lines 89-100):
`status=failed, error=error`; note that `result` is not touched. -/
def fail_task (task_id : String) (error : String) (now : Nat) (s : Store) :
    Store × Option TaskDB :=
  Storage.update_task task_id (some TaskStatus.failed) none none
    (some error) now s

/-- `TaskManager.get_pending_tasks` (src/app/core/task_manager.py lines
102-105). -/
def get_pending_tasks (limit : Nat) (s : Store) : List TaskDB :=
  Storage.get_pending_tasks limit s

end TaskManager

/-! ## Lifecycle operations

The Lifecycle Manager's mutating operations, reified as an operation
datatype so that reachability of store states (claim C3's "every store
state reachable through the Lifecycle Manager's operations") can be stated
and settled. -/

/-- One Lifecycle Manager operation (create / transition / complete /
fail / cancel), with the effectful inputs (generated id, wall clock) made
explicit. -/
inductive LifecycleOp where
  | create (task_id : String) (req : TaskCreateRequest) (now : Nat)
  | transition (task_id : String) (status : TaskStatus)
      (progress : Option Int) (now : Nat)
  | complete (task_id : String) (result : String) (now : Nat)
  | fail (task_id : String) (error : String) (now : Nat)
  | cancel (task_id : String)
deriving DecidableEq, Repr

/-- The store effect of one Lifecycle Manager operation. -/
def applyOp (s : Store) : LifecycleOp → Store
  | LifecycleOp.create task_id req now =>
      (TaskManager.create_task task_id req now s).1
  | LifecycleOp.transition task_id status progress now =>
      (TaskManager.update_task_status task_id status progress now s).1
  | LifecycleOp.complete task_id result now =>
      (TaskManager.complete_task task_id result now s).1
  | LifecycleOp.fail task_id error now =>
      (TaskManager.fail_task task_id error now s).1
  | LifecycleOp.cancel task_id =>
      (TaskManager.cancel_task task_id s).1

/-- Run a sequence of Lifecycle Manager operations from the empty store. -/
def runOps (ops : List LifecycleOp) : Store :=
  ops.foldl applyOp []

/-- The §3 invariant under check in C3: result present iff completed,
error present iff failed. -/
def resultErrorInv (s : Store) : Prop :=
  ∀ t ∈ s, (t.result ≠ none ↔ t.status = TaskStatus.completed) ∧
    (t.error ≠ none ↔ t.status = TaskStatus.failed)

instance (s : Store) : Decidable (resultErrorInv s) := by
  unfold resultErrorInv; infer_instance

/-- A status that is not terminal. -/
def nonTerminal (st : TaskStatus) : Prop :=
  st ≠ TaskStatus.completed ∧ st ≠ TaskStatus.failed

/-- Side condition of the §3 state machine on one operation: `transition`
is used only for `processing`/`uploading` updates (spec §4.2), and no
mutating operation targets a task that is already terminal. -/
def okOp (s : Store) : LifecycleOp → Prop
  | LifecycleOp.create _ _ _ => True
  | LifecycleOp.cancel _ => True
  | LifecycleOp.transition task_id status _ _ =>
      (status = TaskStatus.processing ∨ status = TaskStatus.uploading) ∧
      ∀ t ∈ s, t.task_id = task_id → nonTerminal t.status
  | LifecycleOp.complete task_id _ _ =>
      ∀ t ∈ s, t.task_id = task_id → nonTerminal t.status
  | LifecycleOp.fail task_id _ _ =>
      ∀ t ∈ s, t.task_id = task_id → nonTerminal t.status

/-- Store states reachable from the empty store by Lifecycle Manager
operations respecting the §3 state machine. -/
inductive OkReachable : Store → Prop where
  | nil : OkReachable []
  | step {s : Store} {op : LifecycleOp} : OkReachable s → okOp s op →
      OkReachable (applyOp s op)

/-! ## ComfyUI completion wait

`ComfyUIClient.wait_for_completion` (src/app/clients/comfyui/client.py
lines 66-123): a loop that, per iteration, first checks the overall
elapsed time against `timeout` (default 600s) and then receives one
websocket message with a 30s per-receive timeout; a per-receive timeout
is caught and the loop continues.  The wait ends on an `executing` event
with a null node (completion), raises on an `execution_error` event, and
raises `TimeoutError` when an elapsed-time check fails.

Time is modelled by naturals (seconds of elapsed time); the message
stream is a list of (arrival time, message) pairs in arrival order.  The
progress callback threads a state `σ` so that what the worker's callback
does (and does not do) to the store is expressible.  The loop carries
explicit fuel; `none` means the fuel ran out before the loop returned. -/

/-- A websocket message as interpreted by `wait_for_completion`:
`data.get("value", 0)` / `data.get("max", 100)` for progress events, the
optional `node` of an `executing` event, and the optional
`exception_message` of an `execution_error` event. -/
inductive WSMsg where
  | progress (prompt_id : String) (value : Int) (maxv : Int)
  | executing (prompt_id : String) (node : Option String)
  | execution_error (prompt_id : String) (exception_message : Option String)
  | other
deriving DecidableEq, Repr

/-- How the loop ends: normal completion, the overall-timeout raise, or an
execution-error raise.  Each carries the callback state and the elapsed
time at which the loop ended. -/
inductive WaitOutcome (σ : Type) where
  | done (st : σ) (t : Nat)
  | timedOut (st : σ) (t : Nat)
  | execError (msg : String) (st : σ) (t : Nat)
deriving DecidableEq, Repr

/-- The progress percentage computed at src/app/clients/comfyui/client.py
line 97: `int((value / max_value) * 100) if max_value > 0 else 0`.  With
exact (rational) arithmetic, `int(...)` truncates toward zero, which is
`Int.tdiv` of `value * 100` by `max_value`. -/
def progressPercent (value maxv : Int) : Int :=
  if maxv > 0 then (value * 100).tdiv maxv else 0

/-- Whether a message is a terminal marker for the given prompt: a
completion (`executing` with null node) or an execution error. -/
def terminalFor (prompt_id : String) : WSMsg → Prop
  | WSMsg.executing pid node => pid = prompt_id ∧ node = none
  | WSMsg.execution_error pid _ => pid = prompt_id
  | _ => False

instance (prompt_id : String) (m : WSMsg) :
    Decidable (terminalFor prompt_id m) := by
  cases m <;> (unfold terminalFor; infer_instance)

/-- The receive loop of `wait_for_completion`.  `now` is the elapsed time;
an event `(t, m)` is delivered by the pending `recv` iff it arrives within
the 30s receive window (`t ≤ now + 30`), in which case the loop resumes at
`max now t`; otherwise the receive times out, the exception is caught and
the loop re-checks the overall elapsed time at `now + 30`. -/
def wait_for_completion {σ : Type} (prompt_id : String) (timeout : Nat)
    (cb : Int → σ → σ) :
    Nat → Nat → List (Nat × WSMsg) → σ → Option (WaitOutcome σ)
  | 0, _, _, _ => none
  | fuel + 1, now, events, st =>
    if now > timeout then some (WaitOutcome.timedOut st now)
    else
      match events with
      | [] => wait_for_completion prompt_id timeout cb fuel
          (now + 30) [] st
      | (t, m) :: rest =>
        if t ≤ now + 30 then
          match m with
          | WSMsg.progress pid value maxv =>
            if pid = prompt_id then
              wait_for_completion prompt_id timeout cb fuel (max now t)
                rest (cb (progressPercent value maxv) st)
            else
              wait_for_completion prompt_id timeout cb fuel (max now t)
                rest st
          | WSMsg.executing pid node =>
            if pid = prompt_id then
              match node with
              | none => some (WaitOutcome.done st (max now t))
              | some _ =>
                wait_for_completion prompt_id timeout cb fuel (max now t)
                  rest st
            else
              wait_for_completion prompt_id timeout cb fuel (max now t)
                rest st
          | WSMsg.execution_error pid msg =>
            if pid = prompt_id then
              some (WaitOutcome.execError (msg.getD "Unknown error") st
                (max now t))
            else
              wait_for_completion prompt_id timeout cb fuel (max now t)
                rest st
          | WSMsg.other =>
            wait_for_completion prompt_id timeout cb fuel (max now t)
              rest st
        else
          wait_for_completion prompt_id timeout cb fuel (now + 30)
            ((t, m) :: rest) st

/-! ## Background worker

`BackgroundWorker._process_task` (src/app/core/worker.py lines 62-178) and
the callback it hands to `wait_for_completion`. -/

/-- The worker-local state visible to the progress callback: the
`last_progress` one-element list together with the task store. -/
structure WorkerState where
  last_progress : Int
  store : Store
deriving DecidableEq, Repr

/-- The `progress_callback` closure defined at src/app/core/worker.py
lines 106-108: it assigns the received percentage to the local
`last_progress` cell and does nothing else — in particular it performs no
store write (the async `update_progress` helper defined at lines 96-101
is never used; the comment at line 108 notes "We can't await here"). -/
def progress_callback (p : Int) (w : WorkerState) : WorkerState :=
  { w with last_progress := p }

/-- The external collaborators of one `_process_task` run, supplied as
explicit data: the outcome of `queue_prompt`, the websocket event stream
(with fuel for the wait loop), whether the final `/history` fetch
contains the prompt, the outputs extracted by `get_outputs_for_nodes`,
the outcome of the image downloads, and the outcome of the Feishu
upload-and-attach call (record id and file tokens). -/
structure ProcEnv where
  queue_prompt : Except String String
  events : List (Nat × WSMsg)
  wait_fuel : Nat
  history_has_prompt : Bool
  outputs : List String
  image_fetch : Except String (List String)
  feishu : Except String (String × List String)
deriving Repr

/-- Serialized `TaskResult.model_dump()` payload recorded by
`complete_task` (opaque; built from the upload's record id). -/
def mkResult (record_id : String) : String :=
  "images@" ++ record_id

/-- `BackgroundWorker._process_task` (src/app/core/worker.py lines
62-178) as a store transformer.  Steps, in source order: manager `get_task`
(early return when missing), `transition(processing, 0)`, storage
`get_task` re-read, `queue_prompt`, `wait_for_completion` with
`progress_callback`, history check, output extraction (`NoOutputs` when
empty), `transition(uploading, 80)`, image downloads, Feishu upload,
`complete_task`.  A raised exception is an `Except.error`; the wait
running out of fuel is reported as an error (a modelling artifact, not a
code path). -/
def _process_task (env : ProcEnv) (task_id : String) (now : Nat)
    (s : Store) : Store × Except String Unit :=
  match TaskManager.get_task task_id s with
  | none => (s, Except.ok ())
  | some _ =>
    let s := (TaskManager.update_task_status task_id TaskStatus.processing
      (some 0) now s).1
    match Storage.get_task task_id s with
    | none => (s, Except.error ("Task " ++ task_id ++ " not found in storage"))
    | some _ =>
      match env.queue_prompt with
      | Except.error e => (s, Except.error e)
      | Except.ok prompt_id =>
        match wait_for_completion prompt_id 600 progress_callback
          env.wait_fuel 0 env.events ⟨0, s⟩ with
        | none => (s, Except.error "wait fuel exhausted")
        | some (WaitOutcome.timedOut w _) =>
          (w.store, Except.error "Workflow execution timed out after 600.0s")
        | some (WaitOutcome.execError msg w _) =>
          (w.store, Except.error ("ComfyUI execution error: " ++ msg))
        | some (WaitOutcome.done w _) =>
          let s := w.store
          if !env.history_has_prompt then
            (s, Except.error ("Prompt " ++ prompt_id ++ " not found in history"))
          else if env.outputs.isEmpty then
            (s, Except.error "No output images found for specified nodes")
          else
            let s := (TaskManager.update_task_status task_id
              TaskStatus.uploading (some 80) now s).1
            match env.image_fetch with
            | Except.error e => (s, Except.error e)
            | Except.ok _ =>
              match env.feishu with
              | Except.error e => (s, Except.error e)
              | Except.ok (record_id, _) =>
                ((TaskManager.complete_task task_id (mkResult record_id)
                  now s).1, Except.ok ())

/-- The per-task body of `BackgroundWorker._process_pending_tasks`
(src/app/core/worker.py lines 55-60): run `_process_task`; on an
exception, catch it and call `fail_task` with its message. -/
def _process_pending_step (env : ProcEnv) (task_id : String) (now : Nat)
    (s : Store) : Store :=
  match _process_task env task_id now s with
  | (s2, Except.ok _) => s2
  | (s2, Except.error e) => (TaskManager.fail_task task_id e now s2).1

/-! ## Feishu upload adapter

`FeishuClient.upload_image` and `FeishuClient.upload_and_attach_images`
(src/app/clients/feishu/client.py lines 39-108 and 216-297).  The remote
service is supplied as data: per-image, per-attempt upload outcomes, the
`get_record` outcome, and the `create_record`/`update_record` outcome. -/

/-- Decidable equality for `Except`, needed to evaluate the upload models
on concrete inputs. -/
instance {ε α : Type} [DecidableEq ε] [DecidableEq α] :
    DecidableEq (Except ε α)
  | Except.ok a, Except.ok b =>
    if h : a = b then isTrue (h ▸ rfl)
    else isFalse (fun hc => h (Except.ok.inj hc))
  | Except.error a, Except.error b =>
    if h : a = b then isTrue (h ▸ rfl)
    else isFalse (fun hc => h (Except.error.inj hc))
  | Except.ok _, Except.error _ => isFalse (fun hc => Except.noConfusion hc)
  | Except.error _, Except.ok _ => isFalse (fun hc => Except.noConfusion hc)

/-- Trace of one `upload_image` call: its result, how many attempts were
made, and the backoff sleeps (seconds) performed between attempts. -/
structure UploadTrace where
  result : Except String String
  attempts : Nat
  sleeps : List Nat
deriving DecidableEq, Repr

/-- The retry loop of `FeishuClient.upload_image` (src/app/clients/feishu/
client.py lines 61-108): `for attempt in range(max_retries + 1)`; a
successful attempt returns the file token at once; a failed attempt
records its error and, when `attempt < max_retries`, sleeps
`2 ** attempt` seconds; after the loop the last error is raised.
`outcomes n` is the outcome of attempt `n` (file token or error). -/
def uploadAttemptLoop (outcomes : Nat → Except String String)
    (max_retries : Nat) (attempt : Nat) : UploadTrace :=
  match outcomes attempt with
  | Except.ok tok => ⟨Except.ok tok, 1, []⟩
  | Except.error e =>
    if _h : attempt < max_retries then
      let r := uploadAttemptLoop outcomes max_retries (attempt + 1)
      ⟨r.result, r.attempts + 1, 2 ^ attempt :: r.sleeps⟩
    else ⟨Except.error e, 1, []⟩
termination_by max_retries - attempt

/-- `FeishuClient.upload_image` with its default `max_retries = 3`. -/
def upload_image (outcomes : Nat → Except String String)
    (max_retries : Nat := 3) : UploadTrace :=
  uploadAttemptLoop outcomes max_retries 0

/-- The value found under the destination field of the existing record,
as consumed at src/app/clients/feishu/client.py lines 259-265: either a
list (each entry `some token` when it is a dict carrying a `file_token`,
`none` when malformed and filtered out) or a non-list value. -/
inductive FieldVal where
  | list (entries : List (Option String))
  | nonList
deriving DecidableEq, Repr

/-- Lines 250-270: the existing attachments kept for the merge.  A read
failure is caught and degrades to the empty list (overwrite); a non-list
value yields the empty list; entries without a `file_token` are
dropped. -/
def existingAttachments : Except String FieldVal → List String
  | Except.ok (FieldVal.list es) => es.filterMap id
  | Except.ok FieldVal.nonList => []
  | Except.error _ => []

/-- Result of `upload_and_attach_images`: the record id returned by the
write, the new file tokens, and the full attachment list written into the
destination field. -/
structure AttachOutcome where
  record_id : String
  file_tokens : List String
  written : List String
deriving DecidableEq, Repr

/-- The upload phase of `upload_and_attach_images` (lines 238-247): each
image is uploaded via `upload_image`; the first exhausted retry loop
propagates its error and aborts the call. -/
def uploadAll : List (Nat → Except String String) →
    Except String (List String)
  | [] => Except.ok []
  | o :: rest =>
    match (upload_image o).result with
    | Except.error e => Except.error e
    | Except.ok tok =>
      match uploadAll rest with
      | Except.error e => Except.error e
      | Except.ok toks => Except.ok (tok :: toks)

/-- `FeishuClient.upload_and_attach_images` (src/app/clients/feishu/
client.py lines 216-297): upload all images, then — only when a
`record_id` is given — read the existing record's attachment list for the
destination field, append the new tokens to it, and write the merged list
back via `update_record` (or `create_record` when no `record_id`).
`read_record` is the `get_record` outcome; `write_result` is the record
id returned by the write, or its failure. -/
def upload_and_attach_images (images : List (Nat → Except String String))
    (record_id : Option String) (read_record : Except String FieldVal)
    (write_result : Except String String) :
    Except String AttachOutcome :=
  match uploadAll images with
  | Except.error e => Except.error e
  | Except.ok file_tokens =>
    let existing := match record_id with
      | some _ => existingAttachments read_record
      | none => []
    let all_attachments := existing ++ file_tokens
    match write_result with
    | Except.error e => Except.error e
    | Except.ok rid => Except.ok ⟨rid, file_tokens, all_attachments⟩

/-! ## Concrete fixtures used by witnesses and counterexamples -/

/-- A create request with no metadata. -/
def req0 : TaskCreateRequest := ⟨"wf", ["9"], "cfg", none⟩

/-- A create request whose metadata is the empty dict. -/
def reqEmptyMeta : TaskCreateRequest := ⟨"wf", ["9"], "cfg", some []⟩

/-- A create request with a non-empty metadata dict. -/
def reqMeta : TaskCreateRequest := ⟨"wf", ["9"], "cfg", some [("k", "v")]⟩

/-- A pending task with id "a", created at instant 5. -/
def tA : TaskDB :=
  ⟨"a", TaskStatus.pending, 0, "wf", ["9"], "cfg", none, none, none, 5, 5⟩

/-- A pending task with id "b", created at the same instant 5. -/
def tB : TaskDB :=
  ⟨"b", TaskStatus.pending, 0, "wf", ["9"], "cfg", none, none, none, 5, 5⟩

/-- The store after the dispatcher claims task "a": the
`transition(processing, progress=0)` write applied to `[tA]`. -/
def claimedStore : Store :=
  (TaskManager.update_task_status "a" TaskStatus.processing (some 0) 6 [tA]).1

/-! ## C8 — progress percentage -/

/-- C8 counterexample: the claim says the reported percentage always lies
in 0..100, but the code does not clamp: a progress event with
`value = 200, max = 100` (value exceeding max) reports 200.  (At these
inputs Python's float arithmetic is exact, so the integer model agrees
with the code.) -/
theorem C8_range_counterexample :
    progressPercent 200 100 = 200 ∧ ¬ progressPercent 200 100 ≤ 100 := by
  decide

/-- C8 (amended): the percentage is `value/max * 100` truncated toward
zero when `max > 0` and 0 when `max ≤ 0` (as claimed), but it lies in
0..100 only under the additional hypothesis `0 ≤ value ≤ max`. -/
theorem C8_progress_percentage :
    (∀ value maxv : Int, maxv ≤ 0 → progressPercent value maxv = 0) ∧
    (∀ value maxv : Int, 0 < maxv →
      progressPercent value maxv = (value * 100).tdiv maxv) ∧
    (∀ value maxv : Int, 0 < maxv → 0 ≤ value → value ≤ maxv →
      0 ≤ progressPercent value maxv ∧ progressPercent value maxv ≤ 100) := by
  refine ⟨fun value maxv h => ?_, fun value maxv h => ?_,
    fun value maxv hm hv0 hvm => ?_⟩
  · simp [progressPercent, not_lt.mpr h]
  · simp [progressPercent, h]
  · have hnum : (0 : Int) ≤ value * 100 := by positivity
    constructor
    · simp only [progressPercent, if_pos hm]
      exact Int.tdiv_nonneg hnum (le_of_lt hm)
    · simp only [progressPercent, if_pos hm]
      rw [Int.tdiv_eq_ediv hnum (le_of_lt hm)]
      calc value * 100 / maxv ≤ maxv * 100 / maxv :=
            Int.ediv_le_ediv hm (by nlinarith)
        _ = 100 := Int.mul_ediv_cancel_left 100 (ne_of_gt hm)

/-- Witness for C8: the amended theorem evaluated at concrete inputs. -/
theorem C8_progress_percentage_witness :
    progressPercent 5 0 = 0 ∧
    progressPercent 1 3 = (1 * 100 : Int).tdiv 3 ∧
    (0 ≤ progressPercent 1 3 ∧ progressPercent 1 3 ≤ 100) :=
  ⟨C8_progress_percentage.1 5 0 (by decide),
   C8_progress_percentage.2.1 1 3 (by decide),
   C8_progress_percentage.2.2 1 3 (by decide) (by decide) (by decide)⟩

/-! ## C9 — metadata round trip -/

/-- C9 counterexample: a create request whose metadata is the empty dict
does not round-trip.  The INSERT binding `json.dumps(task.metadata) if
task.metadata else None` treats the empty dict as falsy and stores NULL,
so the subsequent get returns no metadata instead of the submitted empty
mapping. -/
theorem C9_empty_metadata_counterexample :
    reqEmptyMeta.metadata = some [] ∧
    (TaskManager.get_task "a"
        (TaskManager.create_task "a" reqEmptyMeta 0 []).1).map
      TaskResponse.metadata = some none := by
  decide

/-- C9 (amended): metadata round-trips unmodified for every truthy
(non-empty) metadata dict and for absent metadata; only Python-falsy
metadata (the empty dict) is normalized to NULL. -/
theorem C9_metadata_roundtrip (task_id : String) (req : TaskCreateRequest)
    (now : Nat) (s : Store)
    (hfresh : ∀ t ∈ s, t.task_id ≠ task_id)
    (hmeta : pyTruthyMeta req.metadata = true ∨ req.metadata = none) :
    (TaskManager.get_task task_id
        (TaskManager.create_task task_id req now s).1).map
      TaskResponse.metadata = some req.metadata := by
  have hany : s.any (fun u => u.task_id = task_id) = false := by
    simp only [List.any_eq_false, decide_eq_true_eq]
    exact hfresh
  have hnone : s.find? (fun t => t.task_id = task_id) = none :=
    List.find?_eq_none.mpr (by simpa using hfresh)
  simp only [TaskManager.create_task, Storage.create_task, hany,
    Bool.false_eq_true, if_false, TaskManager.get_task, Storage.get_task,
    List.find?_append, hnone, Option.none_or]
  rcases hmeta with h | h
  · simp [Storage.storedRow, TaskManager.toResponse, h, List.find?]
  · simp [Storage.storedRow, TaskManager.toResponse, h, List.find?,
      pyTruthyMeta]

/-- Witness for C9: a non-empty metadata dict round-trips through create
and get on the empty store. -/
theorem C9_metadata_roundtrip_witness :
    (TaskManager.get_task "a"
        (TaskManager.create_task "a" reqMeta 0 []).1).map
      TaskResponse.metadata = some reqMeta.metadata :=
  C9_metadata_roundtrip "a" reqMeta 0 [] (by simp) (Or.inl (by decide))

/-! ## C7 — pending-task query -/

/-- C7 counterexample: the ORDER BY clause has no id tie-break, so the
order of tasks with equal `created_at` is not determined by their ids:
the same two pending tasks inserted in the two possible orders come back
in those two different orders.  Under the claimed id tie-break both
stores would yield `["a", "b"]`. -/
theorem C7_tie_break_counterexample :
    (Storage.get_pending_tasks 10 [tB, tA]).map TaskDB.task_id
      = ["b", "a"] ∧
    (Storage.get_pending_tasks 10 [tA, tB]).map TaskDB.task_id
      = ["a", "b"] ∧
    tA.created_at = tB.created_at := by
  decide

/-- C7 (amended): the pending query returns at most `limit` tasks, all
pending, ascending by `created_at`; ties are returned in table (rowid)
order, not tie-broken by task id. -/
theorem C7_pending_query_properties (limit : Nat) (s : Store) :
    (Storage.get_pending_tasks limit s).length ≤ limit ∧
    (∀ t ∈ Storage.get_pending_tasks limit s,
      t.status = TaskStatus.pending) ∧
    (Storage.get_pending_tasks limit s).Sorted Storage.createdLE := by
  refine ⟨List.length_take_le _ _, fun t ht => ?_, ?_⟩
  · have hmem : t ∈ (s.filter
        (fun u => u.status = TaskStatus.pending)).insertionSort
          Storage.createdLE :=
      List.mem_of_mem_take ht
    have hmem2 : t ∈ s.filter (fun u => u.status = TaskStatus.pending) :=
      (List.perm_insertionSort Storage.createdLE _).mem_iff.mp hmem
    have := List.of_mem_filter hmem2
    simpa using this
  · exact (List.sorted_insertionSort Storage.createdLE _).sublist
      (List.take_sublist _ _)

/-- Witness for C7: the amended theorem evaluated on a concrete store. -/
theorem C7_pending_query_properties_witness :
    (Storage.get_pending_tasks 1 [tB, tA]).length ≤ 1 ∧
    (∀ t ∈ Storage.get_pending_tasks 1 [tB, tA],
      t.status = TaskStatus.pending) ∧
    (Storage.get_pending_tasks 1 [tB, tA]).Sorted Storage.createdLE :=
  C7_pending_query_properties 1 [tB, tA]

/-! ## C2 — cancel / delete race -/

/-- C2 counterexample: the store's delete path does not re-verify the
pending status.  Interleaving modelled: `cancel_task`'s read over `[tA]`
sees "a" pending and passes its check; the dispatcher's concurrent claim
then writes `processing` (giving `claimedStore`); `cancel_task`'s
subsequent `delete_task` call still deletes the row, because the DELETE
statement's WHERE clause tests only the id — so a task that is no longer
pending does not survive the cancel. -/
theorem C2_delete_path_no_recheck_counterexample :
    (Storage.get_task "a" [tA]).map TaskDB.status
      = some TaskStatus.pending ∧
    (Storage.get_task "a" claimedStore).map TaskDB.status
      = some TaskStatus.processing ∧
    (Storage.delete_task "a" claimedStore).1 = [] ∧
    (Storage.delete_task "a" claimedStore).2 = true := by
  decide

/-- C2 (amended): the pending check happens only at `cancel_task`'s
earlier read, not in the store's delete path.  Run without interleaving,
a cancel that deletes did find the task pending at that read, and the
resulting store is exactly the store-level delete of that id. -/
theorem C2_cancel_checks_pending_at_read (task_id : String) (s : Store)
    (h : (TaskManager.cancel_task task_id s).2 = true) :
    ∃ t, Storage.get_task task_id s = some t ∧
      t.status = TaskStatus.pending ∧
      (TaskManager.cancel_task task_id s).1
        = (Storage.delete_task task_id s).1 := by
  unfold TaskManager.cancel_task at h ⊢
  cases hg : Storage.get_task task_id s with
  | none => rw [hg] at h; simp at h
  | some t =>
    rw [hg] at h
    by_cases hst : t.status = TaskStatus.pending
    · exact ⟨t, rfl, hst, by simp [hst]⟩
    · simp [hst] at h

/-- Witness for C2: cancelling the pending task "a" on `[tA]`. -/
theorem C2_cancel_checks_pending_at_read_witness :
    ∃ t, Storage.get_task "a" [tA] = some t ∧
      t.status = TaskStatus.pending ∧
      (TaskManager.cancel_task "a" [tA]).1
        = (Storage.delete_task "a" [tA]).1 :=
  C2_cancel_checks_pending_at_read "a" [tA] (by decide)

/-! ## Upload loop helper lemmas -/

/-- A successful attempt returns its token at once. -/
theorem uploadAttemptLoop_ok {outcomes : Nat → Except String String}
    {m a : Nat} {tok : String} (h : outcomes a = Except.ok tok) :
    uploadAttemptLoop outcomes m a = ⟨Except.ok tok, 1, []⟩ := by
  unfold uploadAttemptLoop
  rw [h]

/-- A failed attempt below the retry bound sleeps `2 ^ attempt` and
recurses. -/
theorem uploadAttemptLoop_error {outcomes : Nat → Except String String}
    {m a : Nat} {e : String} (h : outcomes a = Except.error e)
    (hlt : a < m) :
    uploadAttemptLoop outcomes m a
      = ⟨(uploadAttemptLoop outcomes m (a + 1)).result,
         (uploadAttemptLoop outcomes m (a + 1)).attempts + 1,
         2 ^ a :: (uploadAttemptLoop outcomes m (a + 1)).sleeps⟩ := by
  rw [uploadAttemptLoop, h]
  simp [hlt]

/-- The final failed attempt raises its own error without sleeping. -/
theorem uploadAttemptLoop_error_last {outcomes : Nat → Except String String}
    {m a : Nat} {e : String} (h : outcomes a = Except.error e)
    (hge : ¬ a < m) :
    uploadAttemptLoop outcomes m a = ⟨Except.error e, 1, []⟩ := by
  rw [uploadAttemptLoop, h]
  simp [hge]

/-- Uploading a list of images whose uploads all succeed at the first
attempt yields exactly those tokens. -/
theorem uploadAll_ok_map (toks : List String) :
    uploadAll (toks.map (fun tok _ => Except.ok tok)) = Except.ok toks := by
  induction toks with
  | nil => rfl
  | cons tok rest ih =>
    have h1 : upload_image (fun _ => Except.ok tok) = ⟨Except.ok tok, 1, []⟩ := by
      unfold upload_image
      exact uploadAttemptLoop_ok rfl
    simp only [List.map_cons, uploadAll, h1, ih]

/-! ## C5 — upload retry policy -/

/-- C5: uploading one artifact makes at most 4 attempts; the sleeps
between successive attempts are the prefix 1s, 2s, 4s of the exponential
backoff; when all 4 attempts fail, the error of the last attempt (attempt
index 3) is the result, after the full backoff 1s, 2s, 4s; and a head
image whose retry loop is exhausted makes the whole
`upload_and_attach_images` call abort with that error (so no
partial-success value is returned). -/
theorem C5_upload_retry_policy :
    (∀ outcomes : Nat → Except String String,
      (upload_image outcomes).attempts ≤ 4 ∧
      (upload_image outcomes).sleeps
        = [1, 2, 4].take ((upload_image outcomes).attempts - 1)) ∧
    (∀ (outcomes : Nat → Except String String) (es : Nat → String),
      (∀ i, i ≤ 3 → outcomes i = Except.error (es i)) →
      upload_image outcomes = ⟨Except.error (es 3), 4, [1, 2, 4]⟩) ∧
    (∀ (o : Nat → Except String String)
      (images : List (Nat → Except String String)) (e : String)
      (record_id : Option String) (read_record : Except String FieldVal)
      (write_result : Except String String),
      (upload_image o).result = Except.error e →
      upload_and_attach_images (o :: images) record_id read_record
        write_result = Except.error e) := by
  refine ⟨fun outcomes => ?_, fun outcomes es h => ?_, 
    fun o images e record_id read_record write_result h => ?_⟩
  · unfold upload_image
    cases h0 : outcomes 0 with
    | ok tok => rw [uploadAttemptLoop_ok h0]; simp
    | error e0 =>
      rw [uploadAttemptLoop_error h0 (by omega)]
      cases h1 : outcomes 1 with
      | ok tok => rw [uploadAttemptLoop_ok h1]; simp
      | error e1 =>
        rw [uploadAttemptLoop_error h1 (by omega)]
        cases h2 : outcomes 2 with
        | ok tok => rw [uploadAttemptLoop_ok h2]; simp
        | error e2 =>
          rw [uploadAttemptLoop_error h2 (by omega)]
          cases h3 : outcomes 3 with
          | ok tok => rw [uploadAttemptLoop_ok h3]; simp
          | error e3 => rw [uploadAttemptLoop_error_last h3 (by omega)]; simp
  · unfold upload_image
    rw [uploadAttemptLoop_error (h 0 (by omega)) (by omega),
      uploadAttemptLoop_error (h 1 (by omega)) (by omega),
      uploadAttemptLoop_error (h 2 (by omega)) (by omega),
      uploadAttemptLoop_error_last (h 3 (by omega)) (by omega)]
    norm_num
  · simp only [upload_and_attach_images, uploadAll, h]

/-- Shared names for the all-attempts-fail witness. -/
def esFun : Nat → String := fun n => "upload failed " ++ toString n

/-- An upload oracle whose every attempt fails. -/
def failAll : Nat → Except String String := fun n => Except.error (esFun n)

/-- Witness for C5: the retry policy evaluated on an always-failing
upload. -/
theorem C5_upload_retry_policy_witness :
    ((upload_image failAll).attempts ≤ 4 ∧
      (upload_image failAll).sleeps
        = [1, 2, 4].take ((upload_image failAll).attempts - 1)) ∧
    upload_image failAll = ⟨Except.error (esFun 3), 4, [1, 2, 4]⟩ ∧
    upload_and_attach_images [failAll] none (Except.ok FieldVal.nonList)
      (Except.ok "r") = Except.error (esFun 3) :=
  ⟨C5_upload_retry_policy.1 failAll,
   C5_upload_retry_policy.2.1 failAll esFun (fun _ _ => rfl),
   C5_upload_retry_policy.2.2 failAll [] (esFun 3) none
     (Except.ok FieldVal.nonList) (Except.ok "r")
     (by rw [C5_upload_retry_policy.2.1 failAll esFun (fun _ _ => rfl)])⟩

/-! ## C4 — merge semantics of upload_and_attach -/

/-- C4: with an existing target record whose destination field holds `k`
prior attachments (each a well-formed `file_token` entry) and `m` new
artifacts whose uploads succeed, the written-back field is exactly the
`k` prior attachments followed by the `m` new tokens (`k + m` in total,
prior ones preserved); when reading the existing record fails, the call
still succeeds and writes only the `m` new tokens. -/
theorem C4_upload_and_attach_appends (prior new_tokens : List String)
    (rid rid2 read_err : String) :
    (upload_and_attach_images (new_tokens.map (fun tok _ => Except.ok tok))
        (some rid) (Except.ok (FieldVal.list (prior.map some)))
        (Except.ok rid2)
      = Except.ok ⟨rid2, new_tokens, prior ++ new_tokens⟩) ∧
    (upload_and_attach_images (new_tokens.map (fun tok _ => Except.ok tok))
        (some rid) (Except.error read_err) (Except.ok rid2)
      = Except.ok ⟨rid2, new_tokens, new_tokens⟩) := by
  constructor <;>
    simp [upload_and_attach_images, uploadAll_ok_map, existingAttachments,
      List.filterMap_map, Function.comp_def, List.filterMap_some]

/-! ## C10 — missing task at processing start -/

/-- A concrete environment for the C10 witness (its contents are
irrelevant: the early return fires before any of it is consulted). -/
def env0 : ProcEnv :=
  ⟨Except.ok "p", [], 10, true, ["o"], Except.ok ["bytes"],
   Except.ok ("rec", ["tok"])⟩

/-- C10: when the claimed task no longer exists at the start of
`_process_task` (e.g. cancelled in the race window after claiming), the
function returns without raising and without any store write, and the
surrounding loop body therefore records no failure either — the store is
left exactly as it was. -/
theorem C10_missing_task_no_write (env : ProcEnv) (task_id : String)
    (now : Nat) (s : Store)
    (h : TaskManager.get_task task_id s = none) :
    _process_task env task_id now s = (s, Except.ok ()) ∧
    _process_pending_step env task_id now s = s := by
  have h1 : _process_task env task_id now s = (s, Except.ok ()) := by
    unfold _process_task
    rw [h]
  exact ⟨h1, by unfold _process_pending_step; rw [h1]⟩

/-- Witness for C10: processing an unknown task id over the one-task
store `[tA]` leaves it untouched. -/
theorem C10_missing_task_no_write_witness :
    _process_task env0 "zz" 7 [tA] = ([tA], Except.ok ()) ∧
    _process_pending_step env0 "zz" 7 [tA] = [tA] :=
  C10_missing_task_no_write env0 "zz" 7 [tA] (by decide)

/-! ## C1 — progress events and the store -/

/-- The websocket event stream for C1's failing input: one 50% progress
event for the task's prompt, then normal completion. -/
def progressEvents : List (Nat × WSMsg) :=
  [(1, WSMsg.progress "p" 50 100), (2, WSMsg.executing "p" none)]

/-- C1 (failing input, evaluated): during the wait, the 50% progress
event for the prompt reaches `progress_callback`, which records it in the
worker-local `last_progress` cell — but the store is bit-for-bit
unchanged: the stored progress of the processing task "a" is still 0
after the wait.  No progress event is forwarded into a store write
(`update_progress`, the store-writing helper at src/app/core/worker.py
lines 96-101, is never invoked; the callback installed at lines 106-108
only assigns a local). -/
theorem C1_progress_events_not_written_to_store :
    wait_for_completion "p" 600 progress_callback 10 0 progressEvents
      ⟨0, claimedStore⟩
      = some (WaitOutcome.done ⟨50, claimedStore⟩ 2) ∧
    (Storage.get_task "a" claimedStore).map TaskDB.progress = some 0 := by
  decide

/-! ## C3 — result/error iff status invariant -/

/-- A Lifecycle Manager operation sequence that drives a task through
`complete` and then `fail`. -/
def badOps : List LifecycleOp :=
  [LifecycleOp.create "a" req0 0, LifecycleOp.complete "a" "r" 1,
   LifecycleOp.fail "a" "e" 2]

/-- C3 counterexample: the store state reached by create; complete; fail
violates the claimed invariant — `fail_task` patches only `status` and
`error` and leaves the previously written `result` column in place, so
the task ends `failed` with a non-null result. -/
theorem C3_result_iff_completed_counterexample :
    ¬ resultErrorInv (runOps badOps) ∧
    (Storage.get_task "a" (runOps badOps)).map TaskDB.status
      = some TaskStatus.failed ∧
    (Storage.get_task "a" (runOps badOps)).map TaskDB.result
      = some (some "r") := by
  decide

/-- Invariant preservation of the UPDATE shapes issued by the Manager
(transition / complete / fail), provided no targeted row is already
terminal. -/
theorem update_task_preserves_inv
    (s : Store) (task_id : String) (st : TaskStatus)
    (progress : Option Int) (result error : Option String) (now : Nat)
    (hinv : resultErrorInv s)
    (hok : ∀ t ∈ s, t.task_id = task_id → nonTerminal t.status)
    (hshape :
      (nonTerminal st ∧ result = none ∧ error = none) ∨
      (st = TaskStatus.completed ∧ (∃ r, result = some r) ∧ error = none) ∨
      (st = TaskStatus.failed ∧ result = none ∧ ∃ e, error = some e)) :
    resultErrorInv
      (Storage.update_task task_id (some st) progress result error
        now s).1 := by
  intro t ht
  simp only [Storage.update_task, List.mem_map] at ht
  obtain ⟨u, hu, hEq⟩ := ht
  subst hEq
  by_cases hid : u.task_id = task_id
  · rw [if_pos hid]
    have hnt := hok u hu hid
    have hiu := hinv u hu
    have hur : u.result = none := by
      cases hr : u.result with
      | none => rfl
      | some r => exact absurd (hiu.1.mp (by simp [hr])) hnt.1
    have hue : u.error = none := by
      cases he : u.error with
      | none => rfl
      | some e => exact absurd (hiu.2.mp (by simp [he])) hnt.2
    rcases hshape with ⟨hnt2, hrn, hen⟩ | ⟨hst, ⟨r, hr⟩, hen⟩
      | ⟨hst, hrn, ⟨e, he⟩⟩
    · subst hrn; subst hen
      simp [Storage.patchRow, hur, hue, hnt2.1, hnt2.2]
    · subst hst; subst hr; subst hen
      simp [Storage.patchRow, hue]
    · subst hst; subst hrn; subst he
      simp [Storage.patchRow, hur]
  · rw [if_neg hid]
    exact hinv u hu

/-- C3 (amended): the result/error iff status invariant does hold in
every store state reachable by Lifecycle Manager operations that respect
the §3 state machine — i.e. `transition` used only for
`processing`/`uploading` and no mutating operation applied to a task that
is already `completed` or `failed`. -/
theorem C3_result_error_invariant_lifecycle {s : Store}
    (h : OkReachable s) : resultErrorInv s := by
  induction h with
  | nil => intro t ht; cases ht
  | step hR hok ih =>
    rename_i s0 op
    cases op with
    | create task_id req now =>
      intro t ht
      simp only [applyOp, TaskManager.create_task,
        Storage.create_task] at ht
      split at ht
      · exact ih t ht
      · rcases List.mem_append.mp ht with hmem | hmem
        · exact ih t hmem
        · have : t = Storage.storedRow
              { task_id := task_id, status := TaskStatus.pending,
                progress := 0, workflow := req.workflow,
                output_node_ids := req.output_node_ids,
                feishu_config := req.feishu_config, result := none,
                error := none, metadata := req.metadata,
                created_at := now, updated_at := now } :=
            List.mem_singleton.mp hmem
          subst this
          simp [Storage.storedRow]
    | transition task_id st progress now =>
      obtain ⟨hst, hnonterm⟩ := hok
      refine update_task_preserves_inv s0 task_id st progress none none
        now ih hnonterm (Or.inl ⟨?_, rfl, rfl⟩)
      rcases hst with h1 | h1 <;> subst h1 <;> exact ⟨by simp, by simp⟩
    | complete task_id result now =>
      exact update_task_preserves_inv s0 task_id TaskStatus.completed
        (some 100) (some result) none now ih hok
        (Or.inr (Or.inl ⟨rfl, ⟨result, rfl⟩, rfl⟩))
    | fail task_id error now =>
      exact update_task_preserves_inv s0 task_id TaskStatus.failed
        none none (some error) now ih hok
        (Or.inr (Or.inr ⟨rfl, rfl, ⟨error, rfl⟩⟩))
    | cancel task_id =>
      intro t ht
      simp only [applyOp, TaskManager.cancel_task] at ht
      cases hg : Storage.get_task task_id s0 with
      | none => rw [hg] at ht; exact ih t ht
      | some u =>
        rw [hg] at ht
        dsimp only at ht
        by_cases hst : u.status = TaskStatus.pending
        · rw [if_neg (fun hc => hc hst)] at ht
          simp only [Storage.delete_task] at ht
          exact ih t (List.mem_of_mem_filter ht)
        · rw [if_pos hst] at ht
          exact ih t ht

/-- Witness for C3: the invariant evaluated on the state reached by one
lifecycle-respecting create. -/
theorem C3_result_error_invariant_lifecycle_witness :
    resultErrorInv (applyOp [] (LifecycleOp.create "a" req0 0)) :=
  C3_result_error_invariant_lifecycle
    (OkReachable.step OkReachable.nil trivial)

/-! ## C6 — overall timeout vs terminal markers -/

/-- A `TimeoutError` is only raised by an elapsed-time check that found
elapsed > timeout: whenever the wait ends in `timedOut`, the recorded
elapsed time exceeds the budget — never before it. -/
theorem wait_timedOut_after_budget {σ : Type} (prompt_id : String)
    (timeout : Nat) (cb : Int → σ → σ) :
    ∀ (fuel now : Nat) (events : List (Nat × WSMsg)) (st w : σ) (tr : Nat),
      wait_for_completion prompt_id timeout cb fuel now events st
        = some (WaitOutcome.timedOut w tr) → timeout < tr := by
  intro fuel
  induction fuel with
  | zero =>
    intro now events st w tr h
    simp [wait_for_completion] at h
  | succ fuel ih =>
    intro now events st w tr h
    rw [wait_for_completion.eq_def] at h
    dsimp only at h
    split at h
    case isTrue hn =>
      simp only [Option.some.injEq, WaitOutcome.timedOut.injEq] at h
      omega
    case isFalse hn =>
      cases events with
      | nil => exact ih _ _ _ _ _ h
      | cons e rest =>
        obtain ⟨t, m⟩ := e
        dsimp only at h
        split at h
        case isTrue hrecv =>
          split at h
          · split at h
            · exact ih _ _ _ _ _ h
            · exact ih _ _ _ _ _ h
          · split at h
            · split at h
              · simp at h
              · exact ih _ _ _ _ _ h
            · exact ih _ _ _ _ _ h
          · split at h
            · simp at h
            · exact ih _ _ _ _ _ h
          · exact ih _ _ _ _ _ h
        case isFalse => exact ih _ _ _ _ _ h

/-- When the stream holds no terminal marker for the prompt, the only way
the loop can return is through the overall-timeout raise: per-receive
inactivity never produces a failure of its own. -/
theorem wait_no_terminal_timedOut {σ : Type} (prompt_id : String)
    (timeout : Nat) (cb : Int → σ → σ) :
    ∀ (fuel now : Nat) (events : List (Nat × WSMsg)) (st : σ)
      (o : WaitOutcome σ),
      (∀ e ∈ events, ¬ terminalFor prompt_id e.2) →
      wait_for_completion prompt_id timeout cb fuel now events st
        = some o →
      ∃ w tr, o = WaitOutcome.timedOut w tr := by
  intro fuel
  induction fuel with
  | zero =>
    intro now events st o hno h
    simp [wait_for_completion] at h
  | succ fuel ih =>
    intro now events st o hno h
    rw [wait_for_completion.eq_def] at h
    dsimp only at h
    split at h
    case isTrue hn =>
      exact ⟨st, now, (Option.some.inj h).symm⟩
    case isFalse hn =>
      cases events with
      | nil => exact ih _ _ _ _ (by simp) h
      | cons e rest =>
        obtain ⟨t, m⟩ := e
        have hnoRest : ∀ e ∈ rest, ¬ terminalFor prompt_id e.2 :=
          fun e he => hno e (List.mem_cons_of_mem _ he)
        dsimp only at h
        by_cases hrecv : t ≤ now + 30
        · rw [if_pos hrecv] at h
          cases m with
          | progress pid value maxv =>
            dsimp only at h
            by_cases hp : pid = prompt_id
            · rw [if_pos hp] at h; exact ih _ _ _ _ hnoRest h
            · rw [if_neg hp] at h; exact ih _ _ _ _ hnoRest h
          | executing pid node =>
            dsimp only at h
            by_cases hp : pid = prompt_id
            · rw [if_pos hp] at h
              cases node with
              | none =>
                exact absurd (show terminalFor prompt_id
                    (WSMsg.executing pid none) from ⟨hp, rfl⟩)
                  (hno (t, WSMsg.executing pid none)
                    (List.mem_cons_self _ _))
              | some n => exact ih _ _ _ _ hnoRest h
            · rw [if_neg hp] at h; exact ih _ _ _ _ hnoRest h
          | execution_error pid msg =>
            dsimp only at h
            by_cases hp : pid = prompt_id
            · exact absurd (show terminalFor prompt_id
                  (WSMsg.execution_error pid msg) from hp)
                (hno (t, WSMsg.execution_error pid msg)
                  (List.mem_cons_self _ _))
            · rw [if_neg hp] at h; exact ih _ _ _ _ hnoRest h
          | other =>
            dsimp only at h
            exact ih _ _ _ _ hnoRest h
        · rw [if_neg hrecv] at h
          exact ih _ _ _ _ hno h

/-- Receive-window inactivity only re-checks the elapsed time: a
completion marker arriving at time `t ≤ timeout` after an arbitrary
stretch of silence still ends the wait normally at time `t` (given fuel
for the intervening 30s re-checks). -/
theorem wait_inactivity_receives {σ : Type} (prompt_id : String)
    (timeout : Nat) (cb : Int → σ → σ) :
    ∀ (fuel now t : Nat) (st : σ),
      now ≤ t → t ≤ timeout → t - now < 30 * fuel →
      wait_for_completion prompt_id timeout cb fuel now
        [(t, WSMsg.executing prompt_id none)] st
        = some (WaitOutcome.done st t) := by
  intro fuel
  induction fuel with
  | zero => intro now t st h1 h2 h3; omega
  | succ fuel ih =>
    intro now t st h1 h2 h3
    rw [wait_for_completion.eq_def]
    dsimp only
    rw [if_neg (by omega)]
    by_cases hrecv : t ≤ now + 30
    · rw [if_pos hrecv, if_pos rfl]
      rw [Nat.max_eq_right h1]
    · rw [if_neg hrecv]
      exact ih (now + 30) t st (by omega) h2 (by omega)

/-- A terminal marker that arrives at time `tt ≤ timeout` (preceded only
by non-terminal events delivered no later than it) rules out the Timeout
failure: the elapsed checks up to its receipt all pass, and receiving it
ends the wait with done / execError. -/
theorem wait_terminal_prevents_timeout {σ : Type} (prompt_id : String)
    (timeout : Nat) (cb : Int → σ → σ) :
    ∀ (fuel : Nat) (pre : List (Nat × WSMsg)) (now tt : Nat) (mm : WSMsg)
      (post : List (Nat × WSMsg)) (st w : σ) (tr : Nat),
      (∀ e ∈ pre, ¬ terminalFor prompt_id e.2) →
      (∀ e ∈ pre, e.1 ≤ tt) →
      terminalFor prompt_id mm →
      tt ≤ timeout → now ≤ tt →
      wait_for_completion prompt_id timeout cb fuel now
        (pre ++ (tt, mm) :: post) st ≠ some (WaitOutcome.timedOut w tr) := by
  intro fuel
  induction fuel with
  | zero =>
    intro pre now tt mm post st w tr hnt hle hterm htt hnow h
    simp [wait_for_completion] at h
  | succ fuel ih =>
    intro pre now tt mm post st w tr hnt hle hterm htt hnow h
    rw [wait_for_completion.eq_def] at h
    dsimp only at h
    rw [if_neg (by omega)] at h
    cases pre with
    | nil =>
      rw [List.nil_append] at h
      dsimp only at h
      by_cases hrecv : tt ≤ now + 30
      · rw [if_pos hrecv] at h
        cases mm with
        | progress pid value maxv => exact hterm
        | executing pid node =>
          obtain ⟨hpid, hnode⟩ := hterm
          subst hpid; subst hnode
          dsimp only at h
          rw [if_pos rfl] at h
          simp at h
        | execution_error pid msg =>
          have hpid : pid = prompt_id := hterm
          subst hpid
          dsimp only at h
          rw [if_pos rfl] at h
          simp at h
        | other => exact hterm
      · rw [if_neg hrecv] at h
        exact ih [] (now + 30) tt mm post st w tr hnt hle hterm htt
          (by omega) h
    | cons e pre2 =>
      obtain ⟨te, me⟩ := e
      have hte : te ≤ tt := hle (te, me) (List.mem_cons_self _ _)
      have hnte : ¬ terminalFor prompt_id me :=
        hnt (te, me) (List.mem_cons_self _ _)
      have hntRest : ∀ e ∈ pre2, ¬ terminalFor prompt_id e.2 :=
        fun e he => hnt e (List.mem_cons_of_mem _ he)
      have hleRest : ∀ e ∈ pre2, e.1 ≤ tt :=
        fun e he => hle e (List.mem_cons_of_mem _ he)
      rw [List.cons_append] at h
      dsimp only at h
      by_cases hrecv : te ≤ now + 30
      · rw [if_pos hrecv] at h
        have hmax : max now te ≤ tt := max_le hnow hte
        cases me with
        | progress pid value maxv =>
          dsimp only at h
          by_cases hp : pid = prompt_id
          · rw [if_pos hp] at h
            exact ih pre2 (max now te) tt mm post _ w tr hntRest hleRest
              hterm htt hmax h
          · rw [if_neg hp] at h
            exact ih pre2 (max now te) tt mm post _ w tr hntRest hleRest
              hterm htt hmax h
        | executing pid node =>
          dsimp only at h
          by_cases hp : pid = prompt_id
          · rw [if_pos hp] at h
            cases node with
            | none => exact hnte ⟨hp, rfl⟩
            | some n =>
              exact ih pre2 (max now te) tt mm post _ w tr hntRest hleRest
                hterm htt hmax h
          · rw [if_neg hp] at h
            exact ih pre2 (max now te) tt mm post _ w tr hntRest hleRest
              hterm htt hmax h
        | execution_error pid msg =>
          dsimp only at h
          by_cases hp : pid = prompt_id
          · exact hnte hp
          · rw [if_neg hp] at h
            exact ih pre2 (max now te) tt mm post _ w tr hntRest hleRest
              hterm htt hmax h
        | other =>
          dsimp only at h
          exact ih pre2 (max now te) tt mm post _ w tr hntRest hleRest
            hterm htt hmax h
      · rw [if_neg hrecv] at h
        exact ih ((te, me) :: pre2) (now + 30) tt mm post st w tr hnt hle
          hterm htt (by omega) h

/-- C6 counterexample to the claimed iff: with budget 600, a stream whose
only terminal marker arrives at 610 — i.e. no terminal marker is observed
before the elapsed time exceeds the budget — does not fail with Timeout:
the marker is delivered inside the 30s receive window that was already
pending when the budget expired (the elapsed check at 600 still passes,
and the next check never happens), so the wait completes normally at
610. -/
theorem C6_timeout_iff_counterexample :
    wait_for_completion "p" 600 (fun _ (st : Unit) => st) 25 0
      [(610, WSMsg.executing "p" none)] ()
      = some (WaitOutcome.done () 610) ∧ (600 : Nat) < 610 := by
  constructor
  · rfl
  · decide

/-- C6 (amended): (1) a Timeout failure is only ever raised by an
elapsed-time check with elapsed > timeout, never before the budget;
(2) if the stream holds no terminal marker for the prompt, any outcome
the wait returns is the Timeout failure — per-receive inactivity alone
never fails the wait; (3) inactivity only re-checks the elapsed time: a
completion marker at `t ≤ timeout` after arbitrary silence still
completes the wait at `t`; (4) a terminal marker delivered at
`tt ≤ timeout` (preceded only by non-terminal events arriving no later)
rules the Timeout failure out.  The claimed iff itself fails only on the
receive-window boundary exhibited by the counterexample. -/
theorem C6_timeout_behavior :
    (∀ (σ : Type) (prompt_id : String) (timeout : Nat) (cb : Int → σ → σ)
      (fuel now : Nat) (events : List (Nat × WSMsg)) (st w : σ)
      (tr : Nat),
      wait_for_completion prompt_id timeout cb fuel now events st
        = some (WaitOutcome.timedOut w tr) → timeout < tr) ∧
    (∀ (σ : Type) (prompt_id : String) (timeout : Nat) (cb : Int → σ → σ)
      (fuel now : Nat) (events : List (Nat × WSMsg)) (st : σ)
      (o : WaitOutcome σ),
      (∀ e ∈ events, ¬ terminalFor prompt_id e.2) →
      wait_for_completion prompt_id timeout cb fuel now events st
        = some o →
      ∃ w tr, o = WaitOutcome.timedOut w tr) ∧
    (∀ (σ : Type) (prompt_id : String) (timeout : Nat) (cb : Int → σ → σ)
      (fuel now t : Nat) (st : σ),
      now ≤ t → t ≤ timeout → t - now < 30 * fuel →
      wait_for_completion prompt_id timeout cb fuel now
        [(t, WSMsg.executing prompt_id none)] st
        = some (WaitOutcome.done st t)) ∧
    (∀ (σ : Type) (prompt_id : String) (timeout : Nat) (cb : Int → σ → σ)
      (fuel : Nat) (pre : List (Nat × WSMsg)) (now tt : Nat) (mm : WSMsg)
      (post : List (Nat × WSMsg)) (st w : σ) (tr : Nat),
      (∀ e ∈ pre, ¬ terminalFor prompt_id e.2) →
      (∀ e ∈ pre, e.1 ≤ tt) →
      terminalFor prompt_id mm →
      tt ≤ timeout → now ≤ tt →
      wait_for_completion prompt_id timeout cb fuel now
        (pre ++ (tt, mm) :: post) st
        ≠ some (WaitOutcome.timedOut w tr)) :=
  ⟨fun _ prompt_id timeout cb => wait_timedOut_after_budget prompt_id
      timeout cb,
   fun _ prompt_id timeout cb => wait_no_terminal_timedOut prompt_id
      timeout cb,
   fun _ prompt_id timeout cb => wait_inactivity_receives prompt_id
      timeout cb,
   fun _ prompt_id timeout cb => wait_terminal_prevents_timeout prompt_id
      timeout cb⟩

/-- Witness for C6: each conjunct applied at concrete runs — a run with
no events times out at 630 > 600; a completion marker at 300 after ten
silent 30s windows completes at 300; and that marker rules Timeout
out. -/
theorem C6_timeout_behavior_witness :
    (600 : Nat) < 630 ∧
    (∃ w tr, (WaitOutcome.timedOut () 630 : WaitOutcome Unit)
      = WaitOutcome.timedOut w tr) ∧
    wait_for_completion "p" 600 (fun _ (st : Unit) => st) 25 0
      [(300, WSMsg.executing "p" none)] ()
      = some (WaitOutcome.done () 300) ∧
    wait_for_completion "p" 600 (fun _ (st : Unit) => st) 25 0
      [(300, WSMsg.executing "p" none)] ()
      ≠ some (WaitOutcome.timedOut () 700) :=
  ⟨C6_timeout_behavior.1 Unit "p" 600 (fun _ st => st) 25 0 [] () () 630
      (by rfl),
   C6_timeout_behavior.2.1 Unit "p" 600 (fun _ st => st) 25 0 [] ()
      (WaitOutcome.timedOut () 630) (by simp) (by rfl),
   C6_timeout_behavior.2.2.1 Unit "p" 600 (fun _ st => st) 25 0 300 ()
      (by decide) (by decide) (by decide),
   C6_timeout_behavior.2.2.2 Unit "p" 600 (fun _ st => st) 25 [] 0 300
      (WSMsg.executing "p" none) [] () () 700 (by simp) (by simp)
      ⟨rfl, rfl⟩ (by decide) (by decide)⟩
